import Mathlib

/-!
Verification of the biomass allocation optimizer (`solve_biomass_model` in
`main.py`).

The function builds a linear program over decision variables `Q[(f, p)]`
(green tons of feedstock `f` routed to product `p`), maximizes total net
margin subject to feedstock availability, a per-product linearized
average-delivered-cost cap and a per-product volume cap, solves it with an
external LP solver, and recomputes a per-allocation detail table from the
input parameters.

The embedding below models all monetary quantities as rationals (`ℚ`,
standing in for Python floats: exact arithmetic on the values that occur
here).  The external LP solver is modelled by its contract: when it reports
`Optimal` it returns an assignment of the decision variables that is
feasible for, and maximizes, the built LP; an assignment that may be only
partially populated (`varValue` possibly `None`) is an
`Feedstock → Product → Option ℚ` map.
-/

/-- The two feedstocks (`feedstocks = ["slash"]`, plus `"woodchips"` when
`include_woodchips` is set, `main.py` lines 62-64). -/
inductive Feedstock where
  | slash : Feedstock
  | woodchips : Feedstock
deriving DecidableEq, Repr

/-- Product identifiers (Python strings such as `"Biochar"`). -/
abbrev Product := String

/-- The full parameter bundle of `solve_biomass_model` (`main.py` lines
15-47).  Python dicts keyed by product become total functions; the code only
reads them at selected products. -/
structure Params where
  slash_avail : ℚ
  woodchips_avail : ℚ
  include_woodchips : Bool
  selected_products : List Product
  max_volume : Product → ℚ
  processing_cost : Product → ℚ
  depreciation_per_ton : Product → ℚ
  slash_harvest_cost : Product → ℚ
  slash_transport_cost : Product → ℚ
  slash_wood_cost : Product → ℚ
  slash_carbon_credit : Product → ℚ
  woodchips_harvest_cost : Product → ℚ
  woodchips_transport_cost : Product → ℚ
  woodchips_wood_cost : Product → ℚ
  woodchips_carbon_credit : Product → ℚ
  market_price : Product → ℚ
  max_deliv_cost : Product → ℚ
  reg_factor : ℚ

/-- `feedstocks = ["slash"]; if include_woodchips: feedstocks.append("woodchips")`
(`main.py` lines 62-64). -/
def feedstocks (P : Params) : List Feedstock :=
  if P.include_woodchips then [Feedstock.slash, Feedstock.woodchips]
  else [Feedstock.slash]

/-- The keys of the decision-variable dict `Q`, in insertion order:
`for p in selected_products: for f in feedstocks: Q[(f, p)] = ...`
(`main.py` lines 70-73).  The objective loop (lines 77-78) and the detail
loop (lines 150-151) enumerate the same pairs in the same order. -/
def pairs (P : Params) : List (Feedstock × Product) :=
  P.selected_products.flatMap (fun p => (feedstocks P).map (fun f => (f, p)))

/-- Objective coefficient of `Q[(f, p)]`: the `net_margin` computed in the
objective loop (`main.py` lines 79-96), with the slash tables when `f` is
slash and the woodchips tables otherwise. -/
def objNetMargin (P : Params) (f : Feedstock) (p : Product) : ℚ :=
  let bc :=
    match f with
    | Feedstock.slash =>
        (P.slash_harvest_cost p + P.slash_transport_cost p + P.slash_wood_cost p,
         P.slash_carbon_credit p)
    | Feedstock.woodchips =>
        (P.woodchips_harvest_cost p + P.woodchips_transport_cost p + P.woodchips_wood_cost p,
         P.woodchips_carbon_credit p)
  let delivered_cost := bc.1 * (1 + P.reg_factor) + P.processing_cost p + P.depreciation_per_ton p
  let revenue_per_ton := P.market_price p + bc.2
  revenue_per_ton - delivered_cost

/-- Value of the LP objective `lpSum(obj_terms)` (`main.py` lines 76-98) at a
full assignment of the decision variables. -/
def objective (P : Params) (q : Feedstock → Product → ℚ) : ℚ :=
  ((pairs P).map (fun fp => objNetMargin P fp.1 fp.2 * q fp.1 fp.2)).sum

/-- The `c_deliver` coefficient of the MaxDeliveredCost constraint builder
(`main.py` lines 120-129); it recomputes the per-ton delivered cost from the
cost tables. -/
def c_deliver (P : Params) (f : Feedstock) (p : Product) : ℚ :=
  let base_cost :=
    match f with
    | Feedstock.slash =>
        P.slash_harvest_cost p + P.slash_transport_cost p + P.slash_wood_cost p
    | Feedstock.woodchips =>
        P.woodchips_harvest_cost p + P.woodchips_transport_cost p + P.woodchips_wood_cost p
  base_cost * (1 + P.reg_factor) + P.processing_cost p + P.depreciation_per_ton p

/-- `lpSum(sum_cost_expr)` of the MaxDeliveredCost constraint for product `p`
(`main.py` lines 115-131), evaluated at an assignment.  Every `(f, p)` with
`f` in `feedstocks` is a key of `Q`, so the `if (f, p) not in Q: continue`
guard never fires. -/
def sum_cost (P : Params) (q : Feedstock → Product → ℚ) (p : Product) : ℚ :=
  ((feedstocks P).map (fun f => c_deliver P f p * q f p)).sum

/-- `lpSum(sum_tons_expr)` for product `p` (`main.py` lines 116-131), also
the left side of the MaxVolume constraint (lines 139-141). -/
def sum_tons (P : Params) (q : Feedstock → Product → ℚ) (p : Product) : ℚ :=
  ((feedstocks P).map (fun f => q f p)).sum

/-- Left side of the SlashAvail constraint (`main.py` lines 102-104); the
membership guard is vacuous since `("slash", p)` is a key of `Q` for every
selected `p`. -/
def slashUse (P : Params) (q : Feedstock → Product → ℚ) : ℚ :=
  (P.selected_products.map (fun p => q Feedstock.slash p)).sum

/-- Left side of the WoodchipsAvail constraint (`main.py` lines 108-110),
only ever added when `include_woodchips` holds. -/
def woodchipsUse (P : Params) (q : Feedstock → Product → ℚ) : ℚ :=
  (P.selected_products.map (fun p => q Feedstock.woodchips p)).sum

/-- Structured model of the pulp constraint names `"SlashAvail"`,
`"WoodchipsAvail"`, `f"MaxDeliveredCost_{p}"`, `f"MaxVolume_{p}"`
(`main.py` lines 104, 110, 135, 141).  The string encoding is injective
(the prefixes are pairwise non-overlapping), so a constructor per family is
a faithful model of the names. -/
inductive ConName where
  | slashAvail : ConName
  | woodchipsAvail : ConName
  | maxDeliveredCost (p : Product) : ConName
  | maxVolume (p : Product) : ConName
deriving DecidableEq, Repr

/-- One named inequality constraint of the built LP. -/
structure NamedCon where
  name : ConName
  holds : (Feedstock → Product → ℚ) → Prop

/-- The constraints added to the model, in source order (`main.py` lines
100-141): SlashAvail always; WoodchipsAvail only when `include_woodchips`;
one MaxDeliveredCost and one MaxVolume constraint per selected product. -/
def constraints (P : Params) : List NamedCon :=
  [{ name := ConName.slashAvail,
     holds := fun q => slashUse P q ≤ P.slash_avail }]
  ++ (if P.include_woodchips then
        [{ name := ConName.woodchipsAvail,
           holds := fun q => woodchipsUse P q ≤ P.woodchips_avail }]
      else [])
  ++ P.selected_products.map (fun p =>
      { name := ConName.maxDeliveredCost p,
        holds := fun q => sum_cost P q p ≤ P.max_deliv_cost p * sum_tons P q p })
  ++ P.selected_products.map (fun p =>
      { name := ConName.maxVolume p,
        holds := fun q => sum_tons P q p ≤ P.max_volume p })

/-- Feasible region of the built LP: every decision variable is nonnegative
(`lowBound=0`, `main.py` line 73) and every constraint added to the model
holds. -/
def feasible (P : Params) (q : Feedstock → Product → ℚ) : Prop :=
  (∀ fp ∈ pairs P, 0 ≤ q fp.1 fp.2) ∧ ∀ c ∈ constraints P, c.holds q

/-- Optimality for the built (maximization) LP: the content of the solver
reporting `Optimal` and the assignment it returns (`main.py` line 144). -/
def optimal (P : Params) (q : Feedstock → Product → ℚ) : Prop :=
  feasible P q ∧ ∀ q1, feasible P q1 → objective P q1 ≤ objective P q

/-- Nearest integer to `y`, ties to even: the rounding Python's built-in
`round` documents.  (On the values arising in this development no tie and no
binary-representation artifact occurs, so this exact rational rounding
coincides with the float computation.) -/
def pyRound (y : ℚ) : ℤ :=
  let n := ⌊y⌋
  let r := y - (n : ℚ)
  if r < 1 / 2 then n
  else if 1 / 2 < r then n + 1
  else if n % 2 = 0 then n else n + 1

/-- Python's `round(x, 2)` (two decimal places), used for every field of the
detail rows (`main.py` lines 177-185). -/
def round2 (x : ℚ) : ℚ := (pyRound (x * 100) : ℚ) / 100

/-- The `delivered_cost_per_ton` recomputed in the detail loop
(`main.py` lines 159-170). -/
def rowDeliveredCostPerTon (P : Params) (f : Feedstock) (p : Product) : ℚ :=
  let base_cost :=
    match f with
    | Feedstock.slash =>
        P.slash_harvest_cost p + P.slash_transport_cost p + P.slash_wood_cost p
    | Feedstock.woodchips =>
        P.woodchips_harvest_cost p + P.woodchips_transport_cost p + P.woodchips_wood_cost p
  base_cost * (1 + P.reg_factor) + P.processing_cost p + P.depreciation_per_ton p

/-- The `carbon` credit picked in the detail loop (`main.py` lines 163, 168). -/
def rowCarbon (P : Params) (f : Feedstock) (p : Product) : ℚ :=
  match f with
  | Feedstock.slash => P.slash_carbon_credit p
  | Feedstock.woodchips => P.woodchips_carbon_credit p

/-- The `revenue_per_ton` recomputed in the detail loop (`main.py` line 171). -/
def rowRevenuePerTon (P : Params) (f : Feedstock) (p : Product) : ℚ :=
  P.market_price p + rowCarbon P f p

/-- The `net_margin_per_ton` recomputed in the detail loop (`main.py` line 172). -/
def rowNetMarginPerTon (P : Params) (f : Feedstock) (p : Product) : ℚ :=
  rowRevenuePerTon P f p - rowDeliveredCostPerTon P f p

/-- One emitted line item (the dict appended to `rows`, `main.py` lines
174-186). -/
structure Row where
  product : Product
  feedstock : Feedstock
  allocated : ℚ
  deliveredCostPerTon : ℚ
  revenuePerTon : ℚ
  netMarginPerTon : ℚ
  processingCostPerTon : ℚ
  depreciationPerTon : ℚ
  totalDeliveredCost : ℚ
  totalRevenue : ℚ
  totalNetMargin : ℚ
deriving DecidableEq, Repr

/-- The body of the detail loop for one `(f, p)` pair (`main.py` lines
152-186): `allocated = Q[(f, p)].varValue or 0.0` (`None` read as `0.0`),
skip when `allocated < 1e-6`, otherwise append the recomputed row. -/
def emitRow (P : Params) (sol : Feedstock → Product → Option ℚ)
    (fp : Feedstock × Product) : Option Row :=
  let allocated : ℚ := (sol fp.1 fp.2).getD 0
  if allocated < 1 / 1000000 then none
  else
    some
      { product := fp.2
        feedstock := fp.1
        allocated := round2 allocated
        deliveredCostPerTon := round2 (rowDeliveredCostPerTon P fp.1 fp.2)
        revenuePerTon := round2 (rowRevenuePerTon P fp.1 fp.2)
        netMarginPerTon := round2 (rowNetMarginPerTon P fp.1 fp.2)
        processingCostPerTon := round2 (P.processing_cost fp.2)
        depreciationPerTon := round2 (P.depreciation_per_ton fp.2)
        totalDeliveredCost := round2 (rowDeliveredCostPerTon P fp.1 fp.2 * allocated)
        totalRevenue := round2 (rowRevenuePerTon P fp.1 fp.2 * allocated)
        totalNetMargin := round2 (rowNetMarginPerTon P fp.1 fp.2 * allocated) }

/-- The emitted detail rows, in loop order (`main.py` lines 149-186): the
loop enumerates `pairs` (product-major, then feedstock) and the `(f, p) not
in Q` guard never fires. -/
def detailRows (P : Params) (sol : Feedstock → Product → Option ℚ) : List Row :=
  (pairs P).filterMap (emitRow P sol)

/-- Value of the objective expression at a possibly partial solution,
modelling pulp's `LpAffineExpression.value`: the constant `0` plus one term
per variable, `None` as soon as some variable has no value. -/
def exprValue (P : Params) (sol : Feedstock → Product → Option ℚ) :
    List (Feedstock × Product) → Option ℚ
  | [] => some 0
  | fp :: rest =>
    match sol fp.1 fp.2 with
    | none => none
    | some v =>
      match exprValue P sol rest with
      | none => none
      | some s => some (objNetMargin P fp.1 fp.2 * v + s)

/-- `total_net_revenue = pulp.value(model.objective) if model.objective else 0.0`
(`main.py` line 146).  The objective expression is falsy exactly when it has
no terms, i.e. when there are no (feedstock, product) pairs. -/
def totalNetRevenue (P : Params) (sol : Feedstock → Product → Option ℚ) : Option ℚ :=
  if pairs P = [] then some 0 else exprValue P sol (pairs P)

/-! ### Spec-side per-ton formulas

These four selectors and the three derived quantities are transcribed from
the specification's words ("with the harvest/transport/wood/credit values
taken from the slash tables when the feedstock is slash and from the
woodchips tables otherwise"); the claims compare the code-side computations
against them. -/

/-- Spec selector: the harvest cost table of the feedstock. -/
def specHarvest (P : Params) : Feedstock → Product → ℚ
  | Feedstock.slash, p => P.slash_harvest_cost p
  | Feedstock.woodchips, p => P.woodchips_harvest_cost p

/-- Spec selector: the transport cost table of the feedstock. -/
def specTransport (P : Params) : Feedstock → Product → ℚ
  | Feedstock.slash, p => P.slash_transport_cost p
  | Feedstock.woodchips, p => P.woodchips_transport_cost p

/-- Spec selector: the wood cost table of the feedstock. -/
def specWood (P : Params) : Feedstock → Product → ℚ
  | Feedstock.slash, p => P.slash_wood_cost p
  | Feedstock.woodchips, p => P.woodchips_wood_cost p

/-- Spec selector: the carbon credit table of the feedstock. -/
def specCarbon (P : Params) : Feedstock → Product → ℚ
  | Feedstock.slash, p => P.slash_carbon_credit p
  | Feedstock.woodchips, p => P.woodchips_carbon_credit p

/-- Spec formula: `delivered_cost_per_ton(f,p) =
(harvest+transport+wood)(f,p) × (1+reg_factor) + processing_cost[p] +
depreciation_per_ton[p]`. -/
def specDeliveredCostPerTon (P : Params) (f : Feedstock) (p : Product) : ℚ :=
  (specHarvest P f p + specTransport P f p + specWood P f p) * (1 + P.reg_factor)
    + P.processing_cost p + P.depreciation_per_ton p

/-- Spec formula: `revenue_per_ton(f,p) = market_price[p] + carbon_credit(f,p)`. -/
def specRevenuePerTon (P : Params) (f : Feedstock) (p : Product) : ℚ :=
  P.market_price p + specCarbon P f p

/-- Spec formula: `net_margin_per_ton(f,p) = revenue_per_ton(f,p) -
delivered_cost_per_ton(f,p)`. -/
def specNetMarginPerTon (P : Params) (f : Feedstock) (p : Product) : ℚ :=
  specRevenuePerTon P f p - specDeliveredCostPerTon P f p

/-! ### Scenario parameter sets -/

/-- Scenario A of the specification: single product "Biochar", slash only. -/
def scenA : Params :=
  { slash_avail := 1000
    woodchips_avail := 0
    include_woodchips := false
    selected_products := ["Biochar"]
    max_volume := fun _ => 999999
    processing_cost := fun _ => 10
    depreciation_per_ton := fun _ => 0
    slash_harvest_cost := fun _ => 25
    slash_transport_cost := fun _ => 30
    slash_wood_cost := fun _ => 0
    slash_carbon_credit := fun _ => 15
    woodchips_harvest_cost := fun _ => 20
    woodchips_transport_cost := fun _ => 25
    woodchips_wood_cost := fun _ => 0
    woodchips_carbon_credit := fun _ => 0
    market_price := fun _ => 150
    max_deliv_cost := fun _ => 130
    reg_factor := 1 / 5 }

/-- The full-availability allocation of Scenario A. -/
def qA : Feedstock → Product → ℚ := fun _ _ => 1000

/-- The line item Scenario A produces. -/
def rowA : Row :=
  { product := "Biochar"
    feedstock := Feedstock.slash
    allocated := 1000
    deliveredCostPerTon := 76
    revenuePerTon := 165
    netMarginPerTon := 89
    processingCostPerTon := 10
    depreciationPerTon := 0
    totalDeliveredCost := 76000
    totalRevenue := 165000
    totalNetMargin := 89000 }

/-- Scenario B: as Scenario A but `max_delivered_cost = 50`, below the
achievable delivered cost of 76. -/
def scenB : Params := { scenA with max_deliv_cost := fun _ => 50 }

/-- The zero allocation. -/
def qZero : Feedstock → Product → ℚ := fun _ _ => 0

/-- Transcribed from the specification's words for the emission pass: a row
for a pair is produced exactly when the solved allocation (read as `0.0`
when unset) reaches the `1e-6` materiality threshold, and every field is
recomputed from the documented per-ton formulas. -/
def specEmitRow (P : Params) (sol : Feedstock → Product → Option ℚ)
    (fp : Feedstock × Product) : Option Row :=
  if 1 / 1000000 ≤ (sol fp.1 fp.2).getD 0 then
    some
      { product := fp.2
        feedstock := fp.1
        allocated := round2 ((sol fp.1 fp.2).getD 0)
        deliveredCostPerTon := round2 (specDeliveredCostPerTon P fp.1 fp.2)
        revenuePerTon := round2 (specRevenuePerTon P fp.1 fp.2)
        netMarginPerTon := round2 (specNetMarginPerTon P fp.1 fp.2)
        processingCostPerTon := round2 (P.processing_cost fp.2)
        depreciationPerTon := round2 (P.depreciation_per_ton fp.2)
        totalDeliveredCost := round2 (specDeliveredCostPerTon P fp.1 fp.2 * (sol fp.1 fp.2).getD 0)
        totalRevenue := round2 (specRevenuePerTon P fp.1 fp.2 * (sol fp.1 fp.2).getD 0)
        totalNetMargin := round2 (specNetMarginPerTon P fp.1 fp.2 * (sol fp.1 fp.2).getD 0) }
  else none

/-- `P2` is `P1` with one feedstock availability relaxed: all other inputs
identical and the availability not decreased. -/
def relaxes (P1 P2 : Params) : Prop :=
  (∃ a, P2 = { P1 with slash_avail := a } ∧ P1.slash_avail ≤ a) ∨
  (∃ a, P2 = { P1 with woodchips_avail := a } ∧ P1.woodchips_avail ≤ a)

/-- Two parameter bundles agreeing on every input except the woodchips
availability and the four woodchips cost/credit tables. -/
def sameNonWoodchipsInputs (P1 P2 : Params) : Prop :=
  P1.slash_avail = P2.slash_avail ∧
  P1.include_woodchips = P2.include_woodchips ∧
  P1.selected_products = P2.selected_products ∧
  P1.max_volume = P2.max_volume ∧
  P1.processing_cost = P2.processing_cost ∧
  P1.depreciation_per_ton = P2.depreciation_per_ton ∧
  P1.slash_harvest_cost = P2.slash_harvest_cost ∧
  P1.slash_transport_cost = P2.slash_transport_cost ∧
  P1.slash_wood_cost = P2.slash_wood_cost ∧
  P1.slash_carbon_credit = P2.slash_carbon_credit ∧
  P1.market_price = P2.market_price ∧
  P1.max_deliv_cost = P2.max_deliv_cost ∧
  P1.reg_factor = P2.reg_factor

/-- Scenario A with different woodchips inputs (woodchips stays inactive). -/
def scenA9 : Params :=
  { scenA with
      woodchips_avail := 123
      woodchips_harvest_cost := fun _ => 999
      woodchips_transport_cost := fun _ => 998
      woodchips_wood_cost := fun _ => 997
      woodchips_carbon_credit := fun _ => 996 }

/-- Scenario A extended with a second product whose variable the solver
leaves unassigned. -/
def scenTwo : Params := { scenA with selected_products := ["Biochar", "RNG"] }

/-- A partially populated solution: a value only for Biochar. -/
def solTwo : Feedstock → Product → Option ℚ :=
  fun _ p => if p = "Biochar" then some 1000 else none


/-! ### General lemmas about the embedding -/

/-- `pyRound` computes a nearest integer: it is within one half of its input. -/
lemma abs_pyRound_sub (y : ℚ) : |((pyRound y : ℤ) : ℚ) - y| ≤ 1 / 2 := by
  have h0 : ((⌊y⌋ : ℤ) : ℚ) ≤ y := Int.floor_le y
  have h1 : y < ((⌊y⌋ : ℤ) : ℚ) + 1 := Int.lt_floor_add_one y
  simp only [pyRound]
  split_ifs with hlt hgt hev
  · rw [abs_le]; constructor <;> linarith
  · rw [abs_le]; push_cast; constructor <;> linarith
  · rw [abs_le]; constructor <;> linarith
  · rw [abs_le]; push_cast; constructor <;> linarith

/-- Rounding to two decimals moves a value by at most `1/200`. -/
lemma abs_round2_sub (x : ℚ) : |round2 x - x| ≤ 1 / 200 := by
  have h := abs_pyRound_sub (x * 100)
  rw [round2]
  have hx : ((pyRound (x * 100) : ℤ) : ℚ) / 100 - x
      = (((pyRound (x * 100) : ℤ) : ℚ) - x * 100) / 100 := by ring
  rw [hx, abs_div]
  rw [show |(100 : ℚ)| = 100 by norm_num]
  linarith [h]

/-- The feasible region, spelled out: nonnegativity, the two availability
constraints, and the per-product cost-cap and volume constraints. -/
lemma feasible_iff (P : Params) (q : Feedstock → Product → ℚ) :
    feasible P q ↔
      (∀ fp ∈ pairs P, 0 ≤ q fp.1 fp.2) ∧
      slashUse P q ≤ P.slash_avail ∧
      (P.include_woodchips = true → woodchipsUse P q ≤ P.woodchips_avail) ∧
      (∀ p ∈ P.selected_products, sum_cost P q p ≤ P.max_deliv_cost p * sum_tons P q p) ∧
      (∀ p ∈ P.selected_products, sum_tons P q p ≤ P.max_volume p) := by
  unfold feasible constraints
  cases hw : P.include_woodchips <;>
    simp [List.forall_mem_append, List.forall_mem_map, hw] <;>
    intros <;>
    exact ⟨fun h => ⟨fun p hp => h _ (Or.inl ⟨p, hp, rfl⟩), fun p hp => h _ (Or.inr ⟨p, hp, rfl⟩)⟩,
      fun h c hc => by
        rcases hc with ⟨p, hp, rfl⟩ | ⟨p, hp, rfl⟩
        · exact h.1 p hp
        · exact h.2 p hp⟩

/-- The three per-ton computations of the source (objective loop, constraint
loop, detail loop) and the spec formula all agree on the delivered cost. -/
lemma c_deliver_eq_spec (P : Params) (f : Feedstock) (p : Product) :
    c_deliver P f p = specDeliveredCostPerTon P f p := by
  cases f <;> rfl

lemma rowDeliveredCost_eq_spec (P : Params) (f : Feedstock) (p : Product) :
    rowDeliveredCostPerTon P f p = specDeliveredCostPerTon P f p := by
  cases f <;> rfl

lemma rowRevenue_eq_spec (P : Params) (f : Feedstock) (p : Product) :
    rowRevenuePerTon P f p = specRevenuePerTon P f p := by
  cases f <;> rfl

/-- The net margin recomputed in the detail loop equals the objective
coefficient of the same pair. -/
lemma rowNetMargin_eq_obj (P : Params) (f : Feedstock) (p : Product) :
    rowNetMarginPerTon P f p = objNetMargin P f p := by
  cases f <;> rfl

/-- pulp's expression evaluation at a fully assigned solution. -/
lemma exprValue_total (P : Params) (q : Feedstock → Product → ℚ)
    (l : List (Feedstock × Product)) :
    exprValue P (fun f p => some (q f p)) l
      = some ((l.map (fun fp => objNetMargin P fp.1 fp.2 * q fp.1 fp.2)).sum) := by
  induction l with
  | nil => rfl
  | cons fp rest ih => rw [exprValue, ih]; rfl

/-- At a fully assigned solution, `total_net_revenue` is the objective value. -/
lemma totalNetRevenue_total (P : Params) (q : Feedstock → Product → ℚ) :
    totalNetRevenue P (fun f p => some (q f p)) = some (objective P q) := by
  rw [totalNetRevenue, objective]
  by_cases h : pairs P = []
  · rw [if_pos h, h]; rfl
  · rw [if_neg h, exprValue_total]

/-- Summing a projection of the emitted rows equals summing, over all pairs,
the projection of the row the pair would emit (`0` for suppressed pairs). -/
lemma sum_map_filterMap {α : Type} (l : List α) (f : α → Option Row) (g : Row → ℚ) :
    (((l.filterMap f).map g).sum)
      = (l.map (fun x => ((f x).map g).getD 0)).sum := by
  induction l with
  | nil => rfl
  | cons a t ih =>
    rw [List.filterMap_cons]
    cases h : f a <;> simp [h, ih]

/-- Termwise bound on the difference of two list sums. -/
lemma abs_sum_sub_sum_le {α : Type} (l : List α) (f g : α → ℚ) (B : ℚ)
    (h : ∀ x ∈ l, |f x - g x| ≤ B) :
    |(l.map f).sum - (l.map g).sum| ≤ l.length * B := by
  induction l with
  | nil => simp
  | cons a t ih =>
    simp only [List.map_cons, List.sum_cons, List.length_cons]
    have h1 := h a (List.mem_cons_self a t)
    have h2 := ih (fun x hx => h x (List.mem_cons_of_mem a hx))
    have hsplit : f a + (t.map f).sum - (g a + (t.map g).sum)
        = (f a - g a) + ((t.map f).sum - (t.map g).sum) := by ring
    rw [hsplit]
    calc |(f a - g a) + ((t.map f).sum - (t.map g).sum)|
        ≤ |f a - g a| + |(t.map f).sum - (t.map g).sum| := abs_add _ _
      _ ≤ B + t.length * B := add_le_add h1 h2
      _ = (t.length + 1 : ℕ) * B := by push_cast; ring

/-- `emitRow` when the allocation clears the materiality threshold. -/
lemma emitRow_of_ge (P : Params) (sol : Feedstock → Product → Option ℚ)
    (fp : Feedstock × Product) (h : ¬ (sol fp.1 fp.2).getD 0 < 1 / 1000000) :
    emitRow P sol fp
      = some
          { product := fp.2
            feedstock := fp.1
            allocated := round2 ((sol fp.1 fp.2).getD 0)
            deliveredCostPerTon := round2 (rowDeliveredCostPerTon P fp.1 fp.2)
            revenuePerTon := round2 (rowRevenuePerTon P fp.1 fp.2)
            netMarginPerTon := round2 (rowNetMarginPerTon P fp.1 fp.2)
            processingCostPerTon := round2 (P.processing_cost fp.2)
            depreciationPerTon := round2 (P.depreciation_per_ton fp.2)
            totalDeliveredCost :=
              round2 (rowDeliveredCostPerTon P fp.1 fp.2 * (sol fp.1 fp.2).getD 0)
            totalRevenue := round2 (rowRevenuePerTon P fp.1 fp.2 * (sol fp.1 fp.2).getD 0)
            totalNetMargin :=
              round2 (rowNetMarginPerTon P fp.1 fp.2 * (sol fp.1 fp.2).getD 0) } := by
  rw [emitRow, if_neg h]

/-- `emitRow` when the allocation is below the materiality threshold. -/
lemma emitRow_of_lt (P : Params) (sol : Feedstock → Product → Option ℚ)
    (fp : Feedstock × Product) (h : (sol fp.1 fp.2).getD 0 < 1 / 1000000) :
    emitRow P sol fp = none := by
  rw [emitRow, if_pos h]

/-! ### Scenario A and B computations -/

lemma pairsA : pairs scenA = [(Feedstock.slash, "Biochar")] := by
  simp [pairs, scenA, feedstocks]

lemma pairsB : pairs scenB = [(Feedstock.slash, "Biochar")] := by
  simp [pairs, scenB, scenA, feedstocks]

lemma objA (q : Feedstock → Product → ℚ) :
    objective scenA q = 89 * q Feedstock.slash "Biochar" := by
  rw [objective, pairsA]
  simp only [List.map_cons, List.map_nil, List.sum_cons, List.sum_nil]
  norm_num [objNetMargin, scenA]

lemma objB (q : Feedstock → Product → ℚ) :
    objective scenB q = 89 * q Feedstock.slash "Biochar" := by
  rw [objective, pairsB]
  simp only [List.map_cons, List.map_nil, List.sum_cons, List.sum_nil]
  norm_num [objNetMargin, scenB, scenA]

lemma slashUseA (q : Feedstock → Product → ℚ) :
    slashUse scenA q = q Feedstock.slash "Biochar" := by
  simp [slashUse, scenA]

lemma scenA_feasible : feasible scenA qA := by
  rw [feasible_iff]
  refine ⟨fun fp hfp => by simp [qA], by simp [slashUse, scenA, qA], by simp [scenA], ?_, ?_⟩
  · intro p hp
    simp only [sum_cost, sum_tons, feedstocks, scenA] at *
    norm_num [c_deliver, scenA, qA]
  · intro p hp
    simp only [sum_tons, feedstocks, scenA] at *
    norm_num [qA]

lemma scenA_bound (q : Feedstock → Product → ℚ) (h : feasible scenA q) :
    objective scenA q ≤ 89000 := by
  have h1 := ((feasible_iff scenA q).mp h).2.1
  rw [slashUseA] at h1
  rw [objA]
  have : (scenA.slash_avail : ℚ) = 1000 := rfl
  rw [this] at h1
  linarith

lemma scenA_optimal : optimal scenA qA := by
  refine ⟨scenA_feasible, fun q1 hq1 => ?_⟩
  have := scenA_bound q1 hq1
  rw [objA qA]
  show objective scenA q1 ≤ 89 * 1000
  linarith

lemma scenB_zero_feasible : feasible scenB qZero := by
  rw [feasible_iff]
  refine ⟨fun fp hfp => by simp [qZero], by simp [slashUse, scenB, scenA, qZero],
    by simp [scenB, scenA], ?_, ?_⟩
  · intro p hp
    simp only [sum_cost, sum_tons, feedstocks, scenB, scenA] at *
    norm_num [c_deliver, scenB, scenA, qZero]
  · intro p hp
    simp only [sum_tons, feedstocks, scenB, scenA] at *
    norm_num [qZero]

lemma scenB_forces_zero (q : Feedstock → Product → ℚ) (h : feasible scenB q) :
    q Feedstock.slash "Biochar" = 0 := by
  obtain ⟨hn, _, _, hc, _⟩ := (feasible_iff scenB q).mp h
  have hmem : "Biochar" ∈ scenB.selected_products := by simp [scenB, scenA]
  have hcost := hc "Biochar" hmem
  simp only [sum_cost, sum_tons, feedstocks, scenB, scenA] at hcost
  norm_num [c_deliver, scenB, scenA] at hcost
  have hnn := hn (Feedstock.slash, "Biochar") (by rw [pairsB]; exact List.mem_singleton.mpr rfl)
  simp only at hnn
  -- 76 * x ≤ 50 * x together with 0 ≤ x forces x = 0
  linarith

lemma scenB_optimal : optimal scenB qZero := by
  refine ⟨scenB_zero_feasible, fun q1 hq1 => ?_⟩
  rw [objB, objB, scenB_forces_zero q1 hq1]
  simp [qZero]

lemma emitRowA_of (q : Feedstock → Product → ℚ) (hq : q Feedstock.slash "Biochar" = 1000) :
    emitRow scenA (fun f p => some (q f p)) (Feedstock.slash, "Biochar") = some rowA := by
  rw [emitRow_of_ge _ _ _ (by simp only [Option.getD_some]; rw [hq]; norm_num)]
  simp only [Option.getD_some]
  rw [hq]
  simp only [rowA, Option.some.injEq, Row.mk.injEq, rowDeliveredCostPerTon, rowRevenuePerTon,
    rowNetMarginPerTon, rowCarbon, scenA]
  norm_num [round2, pyRound]

lemma detailRowsA (q : Feedstock → Product → ℚ) (hq : q Feedstock.slash "Biochar" = 1000) :
    detailRows scenA (fun f p => some (q f p)) = [rowA] := by
  rw [detailRows, pairsA, List.filterMap_cons, emitRowA_of q hq]
  rfl

lemma detailRowsB (q : Feedstock → Product → ℚ) (hq : q Feedstock.slash "Biochar" = 0) :
    detailRows scenB (fun f p => some (q f p)) = [] := by
  have he : emitRow scenB (fun f p => some (q f p)) (Feedstock.slash, "Biochar") = none :=
    emitRow_of_lt _ _ _ (by simp only [Option.getD_some]; rw [hq]; norm_num)
  rw [detailRows, pairsB, List.filterMap_cons, he]
  rfl

/-! ### Claims -/

/-- C1: for every (feedstock, product) pair, the per-ton figures used in the
objective and in the emitted line items satisfy
`delivered_cost_per_ton = (harvest + transport + wood) * (1 + reg_factor) +
processing_cost + depreciation_per_ton`,
`revenue_per_ton = market_price + carbon_credit`, and
`net_margin_per_ton = revenue_per_ton - delivered_cost_per_ton`, with the
cost/credit values drawn from the slash tables for slash and the woodchips
tables otherwise (and the constraint builder uses the same delivered cost). -/
theorem C1_per_ton_formulas (P : Params) (f : Feedstock) (p : Product) :
    rowDeliveredCostPerTon P f p = specDeliveredCostPerTon P f p ∧
    rowRevenuePerTon P f p = specRevenuePerTon P f p ∧
    rowNetMarginPerTon P f p = specRevenuePerTon P f p - specDeliveredCostPerTon P f p ∧
    objNetMargin P f p = specRevenuePerTon P f p - specDeliveredCostPerTon P f p ∧
    c_deliver P f p = specDeliveredCostPerTon P f p := by
  cases f <;>
    exact ⟨rfl, rfl, rfl, rfl, rfl⟩

/-- C3: any assignment that is feasible for the built LP (in particular the
one returned with an `Optimal` status) keeps total slash use within
`slash_avail`, and total woodchips use within `woodchips_avail` whenever
woodchips is active; moreover the model always contains the SlashAvail
constraint and contains the WoodchipsAvail constraint exactly when woodchips
is active. -/
theorem C3_availability_bounds (P : Params) (q : Feedstock → Product → ℚ)
    (h : feasible P q) :
    slashUse P q ≤ P.slash_avail ∧
    (P.include_woodchips = true → woodchipsUse P q ≤ P.woodchips_avail) ∧
    (constraints P).countP (fun c => c.name == ConName.slashAvail) = 1 ∧
    (constraints P).countP (fun c => c.name == ConName.woodchipsAvail)
      = (if P.include_woodchips then 1 else 0) := by
  obtain ⟨hn, h1, h2, h3, h4⟩ := (feasible_iff P q).mp h
  refine ⟨h1, h2, ?_, ?_⟩ <;>
    cases hw : P.include_woodchips <;>
      simp [constraints, hw, List.countP_append, List.countP_map, List.countP_cons,
        Function.comp]

/-- C3 witness. -/
theorem C3_availability_bounds_witness :
    feasible scenA qA ∧ slashUse scenA qA ≤ scenA.slash_avail :=
  ⟨scenA_feasible, (C3_availability_bounds scenA qA scenA_feasible).1⟩

/-- C5: Scenario A (single product Biochar, slash only, availability 1000,
margin 89 per ton): an optimum exists (the solver reports `Optimal`), every
optimal assignment routes the full 1000 tons to (slash, Biochar), the
objective value is 89000, and the extraction emits exactly the one line item
with delivered cost 76, revenue 165, net margin 89 per ton and total net
margin 89000. -/
theorem C5_scenario_A (q : Feedstock → Product → ℚ) (h : optimal scenA q) :
    (∃ q0, optimal scenA q0) ∧
    q Feedstock.slash "Biochar" = 1000 ∧
    objective scenA q = 89000 ∧
    detailRows scenA (fun f p => some (q f p)) = [rowA] ∧
    totalNetRevenue scenA (fun f p => some (q f p)) = some 89000 := by
  have hub := scenA_bound q h.1
  have hlb : (89000 : ℚ) ≤ objective scenA q := by
    have h1 := h.2 qA scenA_feasible
    rw [objA qA] at h1
    norm_num [qA] at h1
    exact h1
  have hobj : objective scenA q = 89000 := le_antisymm hub hlb
  have hq : q Feedstock.slash "Biochar" = 1000 := by
    rw [objA] at hobj
    linarith
  refine ⟨⟨qA, scenA_optimal⟩, hq, hobj, detailRowsA q hq, ?_⟩
  rw [totalNetRevenue_total, hobj]

/-- C5 witness. -/
theorem C5_scenario_A_witness :
    optimal scenA qA ∧ qA Feedstock.slash "Biochar" = 1000 :=
  ⟨scenA_optimal, (C5_scenario_A qA scenA_optimal).2.1⟩

/-- C6: Scenario B (Scenario A with `max_delivered_cost = 50`, below the
achievable delivered cost 76): the zero assignment is feasible and optimal,
so the solver reports `Optimal` rather than `Infeasible`; every feasible
assignment allocates 0 to the single pair, and every optimal assignment
yields an empty line-item list and total net revenue 0. -/
theorem C6_scenario_B (q : Feedstock → Product → ℚ) (h : optimal scenB q) :
    optimal scenB qZero ∧
    q Feedstock.slash "Biochar" = 0 ∧
    detailRows scenB (fun f p => some (q f p)) = [] ∧
    totalNetRevenue scenB (fun f p => some (q f p)) = some 0 := by
  have hq : q Feedstock.slash "Biochar" = 0 := scenB_forces_zero q h.1
  refine ⟨scenB_optimal, hq, detailRowsB q hq, ?_⟩
  rw [totalNetRevenue_total, objB, hq, mul_zero]

/-- C6 witness. -/
theorem C6_scenario_B_witness :
    optimal scenB qZero ∧ detailRows scenB (fun f p => some (qZero f p)) = [] :=
  ⟨scenB_optimal, (C6_scenario_B qZero scenB_optimal).2.2.1⟩

/-- C2: for every selected product `p` (selected products being distinct, as
the caller contract requires), the built LP contains exactly one
MaxDeliveredCost constraint for `p`, that constraint is the linearized form
`Σ_f delivered_cost_per_ton(f,p) * Q[f,p] ≤ max_delivered_cost[p] * Σ_f Q[f,p]`
over the active feedstocks, and whenever all `Q[f,p]` for `p` vanish it is
satisfied (`0 ≤ 0`). -/
theorem C2_max_delivered_cost_constraint (P : Params) (p : Product)
    (hnd : P.selected_products.Nodup) (hp : p ∈ P.selected_products) :
    (constraints P).countP (fun c => c.name == ConName.maxDeliveredCost p) = 1 ∧
    ∀ c ∈ constraints P, c.name = ConName.maxDeliveredCost p →
      (∀ q, c.holds q ↔
        ((feedstocks P).map (fun f => specDeliveredCostPerTon P f p * q f p)).sum ≤
          P.max_deliv_cost p * ((feedstocks P).map (fun f => q f p)).sum) ∧
      (∀ q, (∀ f, q f p = 0) → c.holds q) := by
  constructor
  · have hc1 : List.countP (fun x => x == p) P.selected_products = 1 := by
      have h := List.count_eq_one_of_mem hnd hp
      rwa [List.count] at h
    have hmdc : List.countP
        (fun p1 : Product => ConName.maxDeliveredCost p1 == ConName.maxDeliveredCost p)
        P.selected_products = 1 := by
      rw [@List.countP_congr _ _ (fun x => x == p) _ (fun x _ => by simp)]
      exact hc1
    have hmv : List.countP
        (fun p1 : Product => ConName.maxVolume p1 == ConName.maxDeliveredCost p)
        P.selected_products = 0 :=
      List.countP_eq_zero.mpr (fun a _ => by simp)
    cases hw : P.include_woodchips <;>
      simp [constraints, hw, List.countP_append, List.countP_map, List.countP_cons,
        Function.comp_def, hmdc, hmv]
  · intro c hc hname
    have hform : c = ({ name := ConName.maxDeliveredCost p, holds := fun q => sum_cost P q p ≤ P.max_deliv_cost p * sum_tons P q p } : NamedCon) := by
      simp only [constraints, List.mem_append, List.mem_cons, List.not_mem_nil, or_false,
        List.mem_map] at hc
      rcases hc with ((hc | hc) | ⟨p1, hp1, hc⟩) | ⟨p1, hp1, hc⟩
      · subst hc; exact absurd hname (by simp)
      · rcases hw : P.include_woodchips with _ | _ <;> rw [hw] at hc <;> simp at hc
        subst hc; exact absurd hname (by simp)
      · have hpp : p1 = p := by
          have hn1 := congrArg NamedCon.name hc
          simp only at hn1
          rw [hname] at hn1
          exact (ConName.maxDeliveredCost.injEq p1 p).mp hn1
        subst hpp
        exact hc.symm
      · have hn1 := congrArg NamedCon.name hc
        simp only at hn1
        rw [hname] at hn1
        exact absurd hn1 (by simp)
    subst hform
    constructor
    · intro q
      show sum_cost P q p ≤ P.max_deliv_cost p * sum_tons P q p ↔ _
      rw [sum_cost, sum_tons,
        show ((feedstocks P).map (fun f => c_deliver P f p * q f p))
            = ((feedstocks P).map (fun f => specDeliveredCostPerTon P f p * q f p)) from
          List.map_congr_left (fun f _ => by rw [c_deliver_eq_spec])]
    · intro q hq
      show sum_cost P q p ≤ P.max_deliv_cost p * sum_tons P q p
      have h1 : sum_cost P q p = 0 := by
        simp [sum_cost, hq]
      have h2 : sum_tons P q p = 0 := by
        simp [sum_tons, hq]
      rw [h1, h2, mul_zero]

/-- C2 witness. -/
theorem C2_max_delivered_cost_constraint_witness :
    scenA.selected_products.Nodup ∧ "Biochar" ∈ scenA.selected_products ∧
    (constraints scenA).countP
      (fun c => c.name == ConName.maxDeliveredCost "Biochar") = 1 :=
  ⟨by decide, by decide,
    (C2_max_delivered_cost_constraint scenA "Biochar" (by decide) (by decide)).1⟩

/-- The detail-loop net margin agrees with the spec formula. -/
lemma rowNetMargin_eq_spec (P : Params) (f : Feedstock) (p : Product) :
    rowNetMarginPerTon P f p = specNetMarginPerTon P f p := by
  cases f <;> rfl

/-- C7 counterexample: with every solved value exactly equal to the `1e-6`
threshold, Scenario A emits a line item although the value is not strictly
greater than `1e-6` — the code keeps allocations with `allocated ≥ 1e-6`,
not `> 1e-6`. -/
theorem C7_emission_counterexample :
    ¬ ((detailRows scenA (fun _ _ => some (1 / 1000000)) ≠ []) ↔
        (1 : ℚ) / 1000000 > 1 / 1000000) := by
  intro hiff
  have hne : detailRows scenA (fun _ _ => some (1 / 1000000)) ≠ [] := by
    rw [detailRows, pairsA, List.filterMap_cons,
      emitRow_of_ge _ _ _ (by simp only [Option.getD_some]; norm_num)]
    simp
  exact absurd (hiff.mp hne) (by norm_num)

/-- C7 (amended): a line item is emitted for a pair exactly when its solved
value (read as `0.0` when unset) is at least `1e-6`; every emitted field is
recomputed from the input parameters via the documented formulas, and the
records appear in (product, feedstock) enumeration order with no sorting:
the emission pass is literally the pair enumeration filtered through the
spec's row builder. -/
theorem C7_emission_amended (P : Params) (sol : Feedstock → Product → Option ℚ) :
    detailRows P sol = (pairs P).filterMap (specEmitRow P sol) := by
  rw [detailRows]
  have hfun : emitRow P sol = specEmitRow P sol := by
    funext fp
    rw [emitRow, specEmitRow]
    by_cases h : (sol fp.1 fp.2).getD 0 < 1 / 1000000
    · rw [if_pos h, if_neg (not_le.mpr h)]
    · rw [if_neg h, if_pos (not_lt.mp h)]
      rw [rowDeliveredCost_eq_spec, rowRevenue_eq_spec, rowNetMargin_eq_spec]
  rw [hfun]

/-- C4: at a fully assigned solution, the returned `total_net_revenue` is
exactly the objective value, and it differs from the sum of the emitted
`Total Net Margin` fields only by the rounding of each emitted total (at
most `1/200` each) plus the suppressed sub-threshold allocations (at most
`M / 1000000` each, for `M` bounding the per-ton net margins): the two
agree within rounding/threshold tolerance. -/
theorem C4_objective_consistency (P : Params) (q : Feedstock → Product → ℚ) (M : ℚ)
    (h0 : ∀ fp ∈ pairs P, 0 ≤ q fp.1 fp.2)
    (hM : ∀ fp ∈ pairs P, |objNetMargin P fp.1 fp.2| ≤ M) :
    totalNetRevenue P (fun f p => some (q f p)) = some (objective P q) ∧
    |objective P q
        - ((detailRows P (fun f p => some (q f p))).map Row.totalNetMargin).sum|
      ≤ (pairs P).length * (1 / 200 + M / 1000000) := by
  refine ⟨totalNetRevenue_total P q, ?_⟩
  rw [detailRows, sum_map_filterMap, objective]
  apply abs_sum_sub_sum_le
  intro fp hfp
  have h0f := h0 fp hfp
  have hMf := hM fp hfp
  have hM0 : (0 : ℚ) ≤ M := le_trans (abs_nonneg _) hMf
  by_cases hlt : q fp.1 fp.2 < 1 / 1000000
  · rw [emitRow_of_lt _ _ _ (by simpa using hlt)]
    simp only [Option.map_none', Option.getD_none, sub_zero, abs_mul]
    have ha : |q fp.1 fp.2| ≤ 1 / 1000000 := by
      rw [abs_of_nonneg h0f]
      exact le_of_lt hlt
    have hmul : |objNetMargin P fp.1 fp.2| * |q fp.1 fp.2| ≤ M * (1 / 1000000) :=
      mul_le_mul hMf ha (abs_nonneg _) hM0
    linarith
  · rw [emitRow_of_ge _ _ _ (by simpa using hlt)]
    simp only [Option.map_some', Option.getD_some]
    rw [rowNetMargin_eq_obj]
    have hr := abs_round2_sub (objNetMargin P fp.1 fp.2 * q fp.1 fp.2)
    rw [abs_sub_comm] at hr
    have hMt : (0 : ℚ) ≤ M / 1000000 := by positivity
    calc |objNetMargin P fp.1 fp.2 * q fp.1 fp.2
            - round2 (objNetMargin P fp.1 fp.2 * q fp.1 fp.2)|
        ≤ 1 / 200 := hr
      _ ≤ 1 / 200 + M / 1000000 := by linarith

/-- C4 witness. -/
theorem C4_objective_consistency_witness :
    (∀ fp ∈ pairs scenA, (0 : ℚ) ≤ qA fp.1 fp.2) ∧
    (∀ fp ∈ pairs scenA, |objNetMargin scenA fp.1 fp.2| ≤ 89) ∧
    totalNetRevenue scenA (fun f p => some (qA f p)) = some (objective scenA qA) :=
  ⟨fun fp _ => by norm_num [qA],
   fun fp hfp => by
     rw [pairsA] at hfp
     rw [List.mem_singleton.mp hfp]
     rw [show objNetMargin scenA (Feedstock.slash, ("Biochar" : Product)).1
           (Feedstock.slash, ("Biochar" : Product)).2 = 89 from by
       norm_num [objNetMargin, scenA]]
     norm_num,
   (C4_objective_consistency scenA qA 89 (fun fp _ => by norm_num [qA])
     (fun fp hfp => by
       rw [pairsA] at hfp
       rw [List.mem_singleton.mp hfp]
       rw [show objNetMargin scenA (Feedstock.slash, ("Biochar" : Product)).1
             (Feedstock.slash, ("Biochar" : Product)).2 = 89 from by
         norm_num [objNetMargin, scenA]]
       norm_num)).1⟩

/-- Relaxing one availability can only enlarge the feasible region. -/
lemma feasible_relax (P1 P2 : Params) (q : Feedstock → Product → ℚ)
    (hrel : relaxes P1 P2) (hf : feasible P1 q) : feasible P2 q := by
  obtain ⟨hn, h1, h2, h3, h4⟩ := (feasible_iff P1 q).mp hf
  rcases hrel with ⟨a, rfl, hle⟩ | ⟨a, rfl, hle⟩ <;> rw [feasible_iff]
  · exact ⟨hn, le_trans h1 hle, h2, h3, h4⟩
  · exact ⟨hn, h1, fun hw => le_trans (h2 hw) hle, h3, h4⟩

/-- C8: increasing a single feedstock availability while holding every other
input fixed never decreases the optimal total net revenue: any optimum of
the relaxed problem dominates any optimum of the original one. -/
theorem C8_availability_monotonicity (P1 P2 : Params)
    (q1 q2 : Feedstock → Product → ℚ)
    (hrel : relaxes P1 P2) (h1 : optimal P1 q1) (h2 : optimal P2 q2) :
    objective P1 q1 ≤ objective P2 q2 := by
  have hf : feasible P2 q1 := feasible_relax P1 P2 q1 hrel h1.1
  have hle := h2.2 q1 hf
  rcases hrel with ⟨a, rfl, _⟩ | ⟨a, rfl, _⟩ <;> exact hle

/-- C8 witness. -/
theorem C8_availability_monotonicity_witness :
    relaxes scenA scenA ∧ optimal scenA qA ∧ objective scenA qA ≤ objective scenA qA :=
  ⟨Or.inl ⟨1000, rfl, le_refl _⟩, scenA_optimal,
    C8_availability_monotonicity scenA scenA qA qA (Or.inl ⟨1000, rfl, le_refl _⟩)
      scenA_optimal scenA_optimal⟩

/-- With woodchips inactive every variable key has feedstock slash. -/
lemma pairs_fst_slash (P : Params) (hw : P.include_woodchips = false) :
    ∀ fp ∈ pairs P, fp.1 = Feedstock.slash := by
  intro fp hfp
  rw [pairs] at hfp
  rw [List.mem_flatMap] at hfp
  obtain ⟨p, _, hfp⟩ := hfp
  simp only [feedstocks, hw, Bool.false_eq_true, if_false, List.map_cons, List.map_nil,
    List.mem_cons, List.not_mem_nil, or_false] at hfp
  rw [hfp]

/-- C9: with woodchips inactive, no woodchips input is ever read: two
parameter bundles that agree on everything except the woodchips availability
and woodchips cost/credit tables build the same variables, the same
constraint list and the same objective, and produce identical line items and
total net revenue for any solver output — hence identical status, line
items and `total_net_revenue`. -/
theorem C9_woodchips_noninterference (P1 P2 : Params)
    (hw : P1.include_woodchips = false) (h : sameNonWoodchipsInputs P1 P2) :
    pairs P1 = pairs P2 ∧
    constraints P1 = constraints P2 ∧
    (∀ q, objective P1 q = objective P2 q) ∧
    (∀ q, feasible P1 q ↔ feasible P2 q) ∧
    (∀ sol, detailRows P1 sol = detailRows P2 sol) ∧
    (∀ sol, totalNetRevenue P1 sol = totalNetRevenue P2 sol) := by
  obtain ⟨e1, e2, e3, e4, e5, e6, e7, e8, e9, e10, e11, e12, e13⟩ := h
  have hw2 : P2.include_woodchips = false := by rw [← e2]; exact hw
  have hfs1 : feedstocks P1 = [Feedstock.slash] := by simp [feedstocks, hw]
  have hfs2 : feedstocks P2 = [Feedstock.slash] := by simp [feedstocks, hw2]
  have hobj : ∀ p, objNetMargin P1 Feedstock.slash p = objNetMargin P2 Feedstock.slash p := by
    intro p
    simp only [objNetMargin]
    rw [e7, e8, e9, e10, e11, e5, e6, e13]
  have hcd : ∀ p, c_deliver P1 Feedstock.slash p = c_deliver P2 Feedstock.slash p := by
    intro p
    simp only [c_deliver]
    rw [e7, e8, e9, e5, e6, e13]
  have hrd : ∀ p, rowDeliveredCostPerTon P1 Feedstock.slash p
      = rowDeliveredCostPerTon P2 Feedstock.slash p := by
    intro p
    simp only [rowDeliveredCostPerTon]
    rw [e7, e8, e9, e5, e6, e13]
  have hrr : ∀ p, rowRevenuePerTon P1 Feedstock.slash p
      = rowRevenuePerTon P2 Feedstock.slash p := by
    intro p
    simp only [rowRevenuePerTon, rowCarbon]
    rw [e10, e11]
  have hrnm : ∀ p, rowNetMarginPerTon P1 Feedstock.slash p
      = rowNetMarginPerTon P2 Feedstock.slash p := by
    intro p
    rw [rowNetMarginPerTon, rowNetMarginPerTon, hrd, hrr]
  have hpairs : pairs P1 = pairs P2 := by
    rw [pairs, pairs, e3, hfs1, hfs2]
  have hsu : slashUse P1 = slashUse P2 := by
    funext q
    rw [slashUse, slashUse, e3]
  have hsc : sum_cost P1 = sum_cost P2 := by
    funext q p
    rw [sum_cost, sum_cost, hfs1, hfs2]
    simp [hcd p]
  have hst : sum_tons P1 = sum_tons P2 := by
    funext q p
    rw [sum_tons, sum_tons, hfs1, hfs2]
  have hcons : constraints P1 = constraints P2 := by
    simp only [constraints, hw, hw2, Bool.false_eq_true, if_false]
    rw [hsu, e1, e3, hsc, hst, e12, e4]
  have hfeas : ∀ q, feasible P1 q ↔ feasible P2 q := by
    intro q
    unfold feasible
    rw [hpairs, hcons]
  have hobjective : ∀ q, objective P1 q = objective P2 q := by
    intro q
    rw [objective, objective, hpairs]
    refine congrArg List.sum (List.map_congr_left fun fp hfp => ?_)
    rw [show fp.1 = Feedstock.slash from pairs_fst_slash P2 hw2 fp hfp, hobj]
  have hfe : ∀ (sol : Feedstock → Product → Option ℚ) fp, fp.1 = Feedstock.slash →
      emitRow P1 sol fp = emitRow P2 sol fp := by
    intro sol fp hfp
    obtain ⟨f, p⟩ := fp
    simp only at hfp
    subst hfp
    rw [emitRow, emitRow]
    simp only
    rw [hrd p, hrr p, hrnm p, e5, e6]
  have hrows : ∀ sol, detailRows P1 sol = detailRows P2 sol := by
    intro sol
    rw [detailRows, detailRows, hpairs]
    exact List.filterMap_congr fun fp hfp => hfe sol fp (pairs_fst_slash P2 hw2 fp hfp)
  have hexpr : ∀ (sol : Feedstock → Product → Option ℚ) (l : List (Feedstock × Product)),
      (∀ fp ∈ l, fp.1 = Feedstock.slash) → exprValue P1 sol l = exprValue P2 sol l := by
    intro sol l
    induction l with
    | nil => intro _; rfl
    | cons fp rest ih =>
      intro hall
      obtain ⟨f, p⟩ := fp
      have hf : f = Feedstock.slash := hall (f, p) (List.mem_cons_self _ _)
      subst hf
      rw [exprValue, exprValue]
      simp only
      rw [ih fun x hx => hall x (List.mem_cons_of_mem _ hx), hobj p]
  have htnr : ∀ sol, totalNetRevenue P1 sol = totalNetRevenue P2 sol := by
    intro sol
    rw [totalNetRevenue, totalNetRevenue, hpairs]
    by_cases hnil : pairs P2 = []
    · rw [if_pos hnil, if_pos hnil]
    · rw [if_neg hnil, if_neg hnil]
      exact hexpr sol (pairs P2) (pairs_fst_slash P2 hw2)
  exact ⟨hpairs, hcons, hobjective, hfeas, hrows, htnr⟩

/-- C9 witness. -/
theorem C9_woodchips_noninterference_witness :
    scenA.include_woodchips = false ∧ sameNonWoodchipsInputs scenA scenA9 ∧
    (∀ sol, detailRows scenA sol = detailRows scenA9 sol) :=
  ⟨rfl, ⟨rfl, rfl, rfl, rfl, rfl, rfl, rfl, rfl, rfl, rfl, rfl, rfl, rfl⟩,
    (C9_woodchips_noninterference scenA scenA9 rfl
      ⟨rfl, rfl, rfl, rfl, rfl, rfl, rfl, rfl, rfl, rfl, rfl, rfl, rfl⟩).2.2.2.2.1⟩

/-- C10: an unassigned solver value (`varValue is None`) is read as `0.0`:
the extraction emits no line item for that pair, the triple is still
returned in full, and every emitted line item comes from a pair whose
solved value is present and at least the `1e-6` threshold. -/
theorem C10_total_extraction (P : Params) (sol : Feedstock → Product → Option ℚ)
    (f : Feedstock) (p : Product) (r : Row)
    (hnone : sol f p = none) (hr : r ∈ detailRows P sol) :
    (sol f p).getD 0 = 0 ∧
    ¬(r.feedstock = f ∧ r.product = p) ∧
    ∃ v, sol r.feedstock r.product = some v ∧ (1 : ℚ) / 1000000 ≤ v := by
  have hv : ∃ v, sol r.feedstock r.product = some v ∧ (1 : ℚ) / 1000000 ≤ v := by
    rw [detailRows] at hr
    obtain ⟨fp, _, hemit⟩ := List.mem_filterMap.mp hr
    rw [emitRow] at hemit
    by_cases hlt : (sol fp.1 fp.2).getD 0 < 1 / 1000000
    · rw [if_pos hlt] at hemit
      exact absurd hemit (by simp)
    · rw [if_neg hlt] at hemit
      have hge := not_lt.mp hlt
      have hrec := Option.some.inj hemit
      subst hrec
      cases hsol : sol fp.1 fp.2 with
      | none =>
        rw [hsol] at hge
        norm_num at hge
      | some v =>
        rw [hsol] at hge
        simp only [Option.getD_some] at hge
        exact ⟨v, rfl, hge⟩
  refine ⟨by rw [hnone]; rfl, ?_, hv⟩
  rintro ⟨h1, h2⟩
  obtain ⟨v, hsome, _⟩ := hv
  rw [h1, h2, hnone] at hsome
  cases hsome

/-- The two-product scenario emits exactly the Biochar row: the unassigned
RNG variable is read as zero and suppressed. -/
lemma detailRowsTwo : detailRows scenTwo solTwo = [rowA] := by
  have hpairs2 : pairs scenTwo = [(Feedstock.slash, "Biochar"), (Feedstock.slash, "RNG")] := by
    simp [pairs, scenTwo, scenA, feedstocks]
  have h1 : emitRow scenTwo solTwo (Feedstock.slash, "Biochar") = some rowA := by
    rw [emitRow_of_ge _ _ _ (by simp only [solTwo]; norm_num)]
    simp only [solTwo]
    norm_num [rowA, Row.mk.injEq, rowDeliveredCostPerTon, rowRevenuePerTon,
      rowNetMarginPerTon, rowCarbon, scenTwo, scenA, round2, pyRound]
  have h2 : emitRow scenTwo solTwo (Feedstock.slash, "RNG") = none := by
    apply emitRow_of_lt
    simp only [solTwo]
    rw [if_neg (by decide)]
    norm_num
  rw [detailRows, hpairs2, List.filterMap_cons, h1, List.filterMap_cons, h2]
  rfl

/-- C10 witness. -/
theorem C10_total_extraction_witness :
    solTwo Feedstock.slash "RNG" = none ∧ rowA ∈ detailRows scenTwo solTwo ∧
    ∃ v, solTwo rowA.feedstock rowA.product = some v ∧ (1 : ℚ) / 1000000 ≤ v :=
  ⟨by simp [solTwo], by rw [detailRowsTwo]; exact List.mem_singleton.mpr rfl,
    (C10_total_extraction scenTwo solTwo Feedstock.slash "RNG" rowA (by simp [solTwo])
      (by rw [detailRowsTwo]; exact List.mem_singleton.mpr rfl)).2.2⟩
